import Mathlib

/-!
Verification of the lane-detection core of the repository
(source: src/assignment-2/task2/main.py).

The pipeline in `LaneDetector.detect_lanes` composes external OpenCV
primitives (grayscale conversion, Gaussian blur, Canny, fillPoly,
HoughLinesP, line/polyline drawing, resize).  Those primitives are not
code of this repository; we model them as an arbitrary bundle `CV` of
deterministic functions, and the pipeline composition, parameter flow,
ROI geometry, resize arithmetic, presets and statistics — which ARE the
repository's code — are translated concretely below.  Theorems about the
pipeline structure are proved for every choice of primitives.
-/

set_option linter.unusedVariables false

/-- A pixel of a colour image, in OpenCV BGR channel order. -/
abbrev Pix := Nat × Nat × Nat

/-- A colour image: a list of rows of BGR pixels (numpy ndarray of shape
height x width x 3, indexed row first). -/
abbrev ColorImg := List (List Pix)

/-- A single-channel image (grayscale, edge map or mask): rows of values. -/
abbrev GrayImg := List (List Nat)

/-- Height of a single-channel image, as in `height, width = edges.shape`. -/
def imgH (g : GrayImg) : Nat := g.length

/-- Width of a single-channel image, as in `height, width = edges.shape`. -/
def imgW (g : GrayImg) : Nat := (g.headD []).length

/-- Height of a colour image, as in `height, width = image.shape[:2]`. -/
def cimgH (g : ColorImg) : Nat := g.length

/-- Width of a colour image, as in `height, width = image.shape[:2]`. -/
def cimgW (g : ColorImg) : Nat := (g.headD []).length

/-- A detected line segment: the four integers `x1, y1, x2, y2 = line[0]`
unpacked from one row of the HoughLinesP output. -/
structure Seg where
  x1 : Nat
  y1 : Nat
  x2 : Nat
  y2 : Nat
deriving DecidableEq, Repr

/-- The seven keyword parameters of `LaneDetector.detect_lanes`, with the
default values of the source.  The same seven values are what the
interactive tuner holds in its sliders. -/
structure Params where
  cannyLow : Nat := 50
  cannyHigh : Nat := 150
  houghThreshold : Nat := 50
  houghMinLength : Nat := 50
  houghMaxGap : Nat := 10
  roiTop : Nat := 50
  roiBottom : Nat := 100
deriving DecidableEq, Repr

/-- The bundle of external OpenCV primitives the script calls.  Each field
is an arbitrary but fixed (hence deterministic) function; the repository
code is parametric in their behaviour.
* `cvtColorGray` models `cv2.cvtColor(img, cv2.COLOR_BGR2GRAY)`;
* `gaussianBlur5` models `cv2.GaussianBlur(gray, (5, 5), 0)` — fixed 5x5
  kernel, zero explicit standard deviation, no tunable parameters;
* `canny` models `cv2.Canny(blurred, canny_low, canny_high)`;
* `fillPoly` models `cv2.fillPoly(mask, [vertices], 255)`;
* `hough` models the segment list found by `cv2.HoughLinesP` at
  rho = 1, theta = pi/180, with threshold, minLineLength, maxLineGap;
* `segStroke s x y` decides whether pixel (x, y) lies in the 2-pixel-wide
  stroke that `cv2.line(img, (s.x1, s.y1), (s.x2, s.y2), color, 2)` paints;
* `polyStroke vs x y` decides whether (x, y) lies in the closed 2-wide
  outline that `cv2.polylines(img, [vs], True, color, 2)` paints;
* `resize` models `cv2.resize(img, (new_width, new_height))`. -/
structure CV where
  cvtColorGray : ColorImg → GrayImg
  gaussianBlur5 : GrayImg → GrayImg
  canny : GrayImg → Nat → Nat → GrayImg
  fillPoly : GrayImg → List (Nat × Nat) → Nat → GrayImg
  hough : GrayImg → Nat → Nat → Nat → List Seg
  segStroke : Seg → Nat → Nat → Bool
  polyStroke : List (Nat × Nat) → Nat → Nat → Bool
  resize : ColorImg → Nat → Nat → ColorImg

/-- Same-shaped all-zero raster, modelling `np.zeros_like(edges)`. -/
def zerosLike (g : GrayImg) : GrayImg := g.map (List.map fun _ => 0)

/-- Pixelwise bitwise AND of two rasters, modelling
`cv2.bitwise_and(edges, roi_mask)` on uint8 data. -/
def bitwiseAnd (a b : GrayImg) : GrayImg :=
  List.zipWith (List.zipWith Nat.land) a b

/-- The `roi_top_pixel = int(height * roi_top / 100)` computation of the
source (integer part of a nonnegative quantity, i.e. a floor). -/
def roiTopPixel (height t : Nat) : Nat := height * t / 100

/-- The `roi_bottom_pixel = int(height * roi_bottom / 100)` computation of
the source.  It is computed by `detect_lanes` and then never used: no
other definition in this file mentions it. -/
def roiBottomPixel (height b : Nat) : Nat := height * b / 100

/-- The `vertices` array of `detect_lanes`: the trapezoid (here in fact a
rectangle) `[[0, height], [0, roi_top_pixel], [width, roi_top_pixel],
[width, height]]`.  Only `roi_top` enters. -/
def roiVertices (width height t : Nat) : List (Nat × Nat) :=
  [(0, height), (0, roiTopPixel height t), (width, roiTopPixel height t), (width, height)]

/-- Overwrite with colour `c` every pixel of one row whose column index
(counting from `x`) satisfies `Q`; the pure-functional reading of one
raster scanline of an OpenCV drawing call. -/
def overlayRowFrom (Q : Nat → Bool) (c : Pix) : Nat → List Pix → List Pix
  | _, [] => []
  | x, p :: ps => (if Q x then c else p) :: overlayRowFrom Q c (x + 1) ps

/-- Overwrite with colour `c` every pixel (x, y) (rows counted from `y`)
satisfying `P`. -/
def overlayFrom (P : Nat → Nat → Bool) (c : Pix) : Nat → ColorImg → ColorImg
  | _, [] => []
  | y, r :: rs => overlayRowFrom (fun x => P x y) c 0 r :: overlayFrom P c (y + 1) rs

/-- In-place OpenCV drawing, read functionally: the image with every pixel
in the stroke set `P` painted colour `c` and every other pixel untouched.
Drawing primitives without anti-aliasing write the full colour at each
covered pixel. -/
def overlay (P : Nat → Nat → Bool) (c : Pix) (img : ColorImg) : ColorImg :=
  overlayFrom P c 0 img

/-- The colour (0, 255, 0) passed to `cv2.line` for detected segments. -/
def lineColor : Pix := (0, 255, 0)

/-- The colour (255, 0, 0) passed to `cv2.polylines` for the ROI outline. -/
def roiColor : Pix := (255, 0, 0)

/-- One `cv2.line(result_image, (x1, y1), (x2, y2), (0, 255, 0), 2)` call. -/
def drawSeg (cv : CV) (img : ColorImg) (s : Seg) : ColorImg :=
  overlay (cv.segStroke s) lineColor img

/-- The `cv2.polylines(result_image, [vertices], True, (255, 0, 0), 2)` call. -/
def drawRoiOutline (cv : CV) (vs : List (Nat × Nat)) (img : ColorImg) : ColorImg :=
  overlay (cv.polyStroke vs) roiColor img

/-- Stage 1 of `detect_lanes`: `gray = cv2.cvtColor(self.original_image,
cv2.COLOR_BGR2GRAY)`. -/
def grayOf (cv : CV) (img : ColorImg) : GrayImg := cv.cvtColorGray img

/-- Stage 2: `blurred = cv2.GaussianBlur(gray, (5, 5), 0)`. -/
def blurredOf (cv : CV) (img : ColorImg) : GrayImg := cv.gaussianBlur5 (grayOf cv img)

/-- Stage 3: `edges = cv2.Canny(blurred, canny_low, canny_high)`. -/
def edgesOf (cv : CV) (img : ColorImg) (p : Params) : GrayImg :=
  cv.canny (blurredOf cv img) p.cannyLow p.cannyHigh

/-- The `vertices` built inside `detect_lanes` from the shape of `edges`
and `roi_top`. -/
def verticesOf (cv : CV) (img : ColorImg) (p : Params) : List (Nat × Nat) :=
  roiVertices (imgW (edgesOf cv img p)) (imgH (edgesOf cv img p)) p.roiTop

/-- Stage 4a: `roi_mask = np.zeros_like(edges)` then
`cv2.fillPoly(roi_mask, [vertices], 255)`. -/
def maskOf (cv : CV) (img : ColorImg) (p : Params) : GrayImg :=
  cv.fillPoly (zerosLike (edgesOf cv img p)) (verticesOf cv img p) 255

/-- Stage 4b: `edges_roi = cv2.bitwise_and(edges, roi_mask)`. -/
def edgesRoiOf (cv : CV) (img : ColorImg) (p : Params) : GrayImg :=
  bitwiseAnd (edgesOf cv img p) (maskOf cv img p)

/-- Stage 5, the raw segment list of the probabilistic Hough transform over
`edges_roi`. -/
def segsOf (cv : CV) (img : ColorImg) (p : Params) : List Seg :=
  cv.hough (edgesRoiOf cv img p) p.houghThreshold p.houghMinLength p.houghMaxGap

/-- The value of the Python variable `lines`: `cv2.HoughLinesP` returns
`None` — not an empty array — when it finds no segments, and the segment
array otherwise.  `detect_lanes` returns this value verbatim. -/
def linesOf (cv : CV) (img : ColorImg) (p : Params) : Option (List Seg) :=
  if (segsOf cv img p).isEmpty then none else some (segsOf cv img p)

/-- Stage 6: `result_image = self.original_image.copy()`, then
`if lines is not None: for line in lines: cv2.line(...)`, then
`cv2.polylines(result_image, [vertices], True, (255, 0, 0), 2)`. -/
def resultImageOf (cv : CV) (img : ColorImg) (p : Params) : ColorImg :=
  let withLines :=
    match linesOf cv img p with
    | none => img
    | some ls => ls.foldl (drawSeg cv) img
  drawRoiOutline cv (verticesOf cv img p) withLines

/-- The triple returned by `detect_lanes`. -/
structure DetectResult where
  resultImage : ColorImg
  edges : GrayImg
  lines : Option (List Seg)
deriving DecidableEq, Repr

/-- `LaneDetector.detect_lanes(self, canny_low, canny_high, hough_threshold,
hough_min_length, hough_max_gap, roi_top, roi_bottom)`:
`return result_image, edges, lines`.  Note that the returned `edges` is the
unmasked Canny output of stage 3, not `edges_roi`. -/
def detectLanes (cv : CV) (img : ColorImg) (p : Params) : DetectResult :=
  { resultImage := resultImageOf cv img p
    edges := edgesOf cv img p
    lines := linesOf cv img p }

/-- `num_lines = len(lines) if lines is not None else 0` in
`InteractiveParameterTuner.update_display`. -/
def numLines (lines : Option (List Seg)) : Nat :=
  match lines with
  | none => 0
  | some ls => ls.length

/-- Euclidean length of one segment,
`np.sqrt((x2 - x1) ** 2 + (y2 - y1) ** 2)`. -/
noncomputable def segLength (s : Seg) : ℝ :=
  Real.sqrt (((s.x2 : ℝ) - (s.x1 : ℝ)) ^ 2 + ((s.y2 : ℝ) - (s.y1 : ℝ)) ^ 2)

/-- The average-line-length statistic of `update_display`: the line
`info_text += f"Avg line length: ..."` runs only under
`if lines is not None and len(lines) > 0`, so the statistic is simply
absent — `none` — when there are no lines; otherwise it is
`np.mean([np.sqrt((x2-x1)**2 + (y2-y1)**2) for ...])`, the sum of the
Euclidean lengths divided by the count. -/
noncomputable def avgLineLength (lines : Option (List Seg)) : Option ℝ :=
  match lines with
  | none => none
  | some ls =>
      if 0 < ls.length then some (((ls.map segLength).sum) / (ls.length : ℝ))
      else none

/-- One preset row of `preset_buttons`: a name and the five values passed
to `load_preset`. -/
structure Preset where
  name : String
  clow : Nat
  chigh : Nat
  hthresh : Nat
  hlen : Nat
  hgap : Nat
deriving DecidableEq, Repr

/-- The `preset_buttons` literal of `create_widgets`. -/
def presetButtons : List Preset :=
  [⟨"Conservative", 30, 90, 80, 100, 5⟩,
   ⟨"Balanced", 50, 150, 50, 50, 10⟩,
   ⟨"Aggressive", 20, 60, 30, 30, 20⟩]

/-- `InteractiveParameterTuner.load_preset(self, clow, chigh, hthresh, hlen,
hgap)`: five `Scale.set` calls on the five edge/line sliders; the two ROI
sliders are not touched.  (All preset values lie inside the corresponding
slider ranges, so `Scale.set` stores them unchanged.) -/
def load_preset (s : Params) (clow chigh hthresh hlen hgap : Nat) : Params :=
  { s with
    cannyLow := clow
    cannyHigh := chigh
    houghThreshold := hthresh
    houghMinLength := hlen
    houghMaxGap := hgap }

/-- Pressing one preset button: `load_preset` applied to the row's values. -/
def applyPreset (s : Params) (pr : Preset) : Params :=
  load_preset s pr.clow pr.chigh pr.hthresh pr.hlen pr.hgap

/-- The "Aggressive" row of `preset_buttons`. -/
def aggressive : Preset := ⟨"Aggressive", 20, 60, 30, 30, 20⟩

/-- The new dimensions computed by `LaneDetector.__init__` when the loaded
image is too large:
`scale = min(1280 / width, 720 / height)`,
`new_width = int(width * scale)`, `new_height = int(height * scale)`.
Python float arithmetic is modelled by exact rationals; `int` of a
nonnegative value is the floor.  When neither bound is exceeded the
dimensions are untouched. -/
def resizeDims (w h : Nat) : Nat × Nat :=
  if 1280 < w ∨ 720 < h then
    let scale : ℚ := min ((1280 : ℚ) / (w : ℚ)) ((720 : ℚ) / (h : ℚ))
    (⌊(w : ℚ) * scale⌋₊, ⌊(h : ℚ) * scale⌋₊)
  else (w, h)

/-- `LaneDetector.__init__`: `cv2.imread` either fails to decode (returns
`None` — modelled by the `Option` argument, covering unreadable files and
empty buffers alike) or yields an image.  On `None` the constructor raises
`ValueError` — a typed failure surfaced synchronously to the caller, with
no retry and no partial result.  Otherwise the image is stored, downscaled
through `cv2.resize` when `width > 1280 or height > 720`. -/
def laneDetectorInit (cv : CV) (decoded : Option ColorImg) : Except String ColorImg :=
  match decoded with
  | none => Except.error "Could not load image"
  | some img =>
      let h := cimgH img
      let w := cimgW img
      if 1280 < w ∨ 720 < h then
        Except.ok (cv.resize img (resizeDims w h).1 (resizeDims w h).2)
      else
        Except.ok img

/-- Horizontal-difference edge scan used by the sample primitive bundle
below: a pixel is an edge when it differs from its right neighbour by at
least the high threshold.  A constant row therefore yields no edges. -/
def rowEdges (high : Nat) : List Nat → List Nat
  | [] => []
  | [_] => [0]
  | a :: b :: rest =>
      (if high ≤ max a b - min a b then 255 else 0) :: rowEdges high (b :: rest)

/-- Number of nonzero pixels of a raster. -/
def countNonzero (g : GrayImg) : Nat :=
  (g.map (List.countP (fun v => decide (v ≠ 0)))).sum

/-- A sample concrete primitive bundle, used to evaluate the pipeline on
concrete images.  Grayscale averages the channels; blur is the identity;
the edge scan marks horizontal jumps of at least the high threshold; the
polygon fill covers the whole raster; the segment finder reports one
segment when at least `threshold` edge pixels survive masking and nothing
otherwise, matching the vote-threshold of the real transform on the
degenerate images used below; strokes cover the listed endpoints. -/
def cv0 : CV where
  cvtColorGray img := img.map (List.map fun p => (p.1 + p.2.1 + p.2.2) / 3)
  gaussianBlur5 g := g
  canny g low high := g.map (rowEdges high)
  fillPoly m vs v := m.map (List.map fun _ => v)
  hough e thr minLen maxGap :=
    if thr ≤ countNonzero e then [⟨0, 0, 0, minLen⟩] else []
  segStroke s x y := decide (x = s.x1 ∧ y = s.y1)
  polyStroke vs x y := decide ((x, y) ∈ vs)
  resize img nw nh := List.replicate nh (List.replicate nw (0, 0, 0))

/-- A 50 x 50 blank white image. -/
def white50 : ColorImg := List.replicate 50 (List.replicate 50 (255, 255, 255))

/-- The default parameters with `hough_threshold` raised to the extreme
value 1000. -/
def paramsHT1000 : Params := { houghThreshold := 1000 }

/-- Modelled from the spec: the ROI vertex list exactly as §3 words it —
(0,H), (0,roiTopPixel), (W,roiTopPixel), (W,H) with
roiTopPixel the integer part of H·roiTop/100, the arithmetic done in ℚ. -/
def specRoiVertices (w h t : Nat) : List (Nat × Nat) :=
  [(0, h), (0, ⌊((h * t : Nat) : ℚ) / 100⌋₊),
   (w, ⌊((h * t : Nat) : ℚ) / 100⌋₊), (w, h)]

/-- Modelled from the claim's words for comparison with `resizeDims`: the
scaled dimensions rounded to the NEAREST integer rather than truncated. -/
def roundedResizeDims (w h : Nat) : Nat × Nat :=
  if 1280 < w ∨ 720 < h then
    let scale : ℚ := min ((1280 : ℚ) / (w : ℚ)) ((720 : ℚ) / (h : ℚ))
    ((round ((w : ℚ) * scale)).toNat, (round ((h : ℚ) * scale)).toNat)
  else (w, h)

/-- Pixel access `img[y][x]`, `none` when out of bounds. -/
def getPixel (img : ColorImg) (x y : Nat) : Option Pix :=
  match img[y]? with
  | none => none
  | some r => r[x]?

theorem overlayRowFrom_getElem (Q : Nat → Bool) (c : Pix) :
    ∀ (x i : Nat) (ps : List Pix),
      (overlayRowFrom Q c x ps)[i]? = (ps[i]?).map (fun p => if Q (x + i) then c else p) := by
  intro x i ps
  induction ps generalizing x i with
  | nil => simp [overlayRowFrom]
  | cons p ps ih =>
      cases i with
      | zero => simp [overlayRowFrom]
      | succ j =>
          simp only [overlayRowFrom, List.getElem?_cons_succ, ih (x + 1) j]
          have hx : x + 1 + j = x + (j + 1) := by omega
          rw [hx]

theorem overlayFrom_getElem (P : Nat → Nat → Bool) (c : Pix) :
    ∀ (y j : Nat) (img : ColorImg),
      (overlayFrom P c y img)[j]?
        = (img[j]?).map (overlayRowFrom (fun x => P x (y + j)) c 0) := by
  intro y j img
  induction img generalizing y j with
  | nil => simp [overlayFrom]
  | cons r rs ih =>
      cases j with
      | zero => simp [overlayFrom]
      | succ j' =>
          simp only [overlayFrom, List.getElem?_cons_succ, ih (y + 1) j']
          have hy : y + 1 + j' = y + (j' + 1) := by omega
          rw [hy]

theorem getPixel_overlay (P : Nat → Nat → Bool) (c : Pix) (img : ColorImg) (x y : Nat) :
    getPixel (overlay P c img) x y
      = (getPixel img x y).map (fun p => if P x y then c else p) := by
  unfold getPixel overlay
  rw [overlayFrom_getElem]
  cases img[y]? with
  | none => rfl
  | some r =>
      simp only [Option.map_some']
      rw [overlayRowFrom_getElem]
      simp

theorem natDiv_eq_floor (a b : Nat) : ⌊(a : ℚ) / (b : ℚ)⌋₊ = a / b := by
  rw [Nat.floor_div_nat, Nat.floor_natCast]

theorem roiVertices_eq_spec (w h t : Nat) : roiVertices w h t = specRoiVertices w h t := by
  unfold roiVertices specRoiVertices roiTopPixel
  rw [show ((100 : ℚ)) = ((100 : Nat) : ℚ) from by norm_num, natDiv_eq_floor]

/-- C3: for every image width W, height H and every roiTop value, the ROI
trapezoid used for masking has exactly the four vertices (0,H),
(0,roiTopPixel), (W,roiTopPixel), (W,H) with roiTopPixel the integer part
of H*roiTop/100; in particular for H = 720 and roiTop = 38 the top edge
lies at pixel row 273. -/
theorem roiVertices_spec :
    (∀ (cv : CV) (img : ColorImg) (p : Params),
       verticesOf cv img p
         = specRoiVertices (imgW (edgesOf cv img p)) (imgH (edgesOf cv img p)) p.roiTop
       ∧ maskOf cv img p
         = cv.fillPoly (zerosLike (edgesOf cv img p))
             (specRoiVertices (imgW (edgesOf cv img p)) (imgH (edgesOf cv img p)) p.roiTop) 255)
    ∧ (∀ w h t : Nat, roiVertices w h t = specRoiVertices w h t)
    ∧ roiTopPixel 720 38 = 273 := by
  refine ⟨fun cv img p => ⟨roiVertices_eq_spec _ _ _, ?_⟩, roiVertices_eq_spec, rfl⟩
  unfold maskOf verticesOf
  rw [roiVertices_eq_spec]

/-- C6: applying the "Aggressive" preset sets exactly the five edge/line
fields cannyLow = 20, cannyHigh = 60, houghThreshold = 30,
houghMinLength = 30, houghMaxGap = 20, and leaves roiTop and roiBottom
unchanged from whatever values they held before. -/
theorem aggressive_preset_frame :
    presetButtons[2]? = some aggressive
    ∧ (∀ s : Params,
        applyPreset s aggressive
          = { s with
              cannyLow := 20
              cannyHigh := 60
              houghThreshold := 30
              houghMinLength := 30
              houghMaxGap := 20 }
        ∧ (applyPreset s aggressive).roiTop = s.roiTop
        ∧ (applyPreset s aggressive).roiBottom = s.roiBottom) :=
  ⟨rfl, fun s => ⟨rfl, rfl, rfl⟩⟩

/-- C7: the reported summary statistic is the mean Euclidean length of all
segments — the average over segments of sqrt((x2-x1)^2+(y2-y1)^2); for the
segments (0,0,3,4) and (0,0,0,10) it equals 7.5; with zero lines it is
omitted entirely (none), not reported as zero or NaN. -/
theorem avgLineLength_spec :
    (∀ ls : List Seg,
       avgLineLength (some ls)
         = if 0 < ls.length then some (((ls.map segLength).sum) / (ls.length : ℝ)) else none)
    ∧ avgLineLength (some [⟨0, 0, 3, 4⟩, ⟨0, 0, 0, 10⟩]) = some (15 / 2)
    ∧ avgLineLength none = none
    ∧ avgLineLength (some []) = none := by
  refine ⟨fun ls => rfl, ?_, rfl, rfl⟩
  have h5 : segLength ⟨0, 0, 3, 4⟩ = 5 := by
    unfold segLength
    rw [show ((((3 : Nat) : ℝ) - ((0 : Nat) : ℝ)) ^ 2 + (((4 : Nat) : ℝ) - ((0 : Nat) : ℝ)) ^ 2) = 5 ^ 2 from by norm_num]
    exact Real.sqrt_sq (by norm_num)
  have h10 : segLength ⟨0, 0, 0, 10⟩ = 10 := by
    unfold segLength
    rw [show ((((0 : Nat) : ℝ) - ((0 : Nat) : ℝ)) ^ 2 + (((10 : Nat) : ℝ) - ((0 : Nat) : ℝ)) ^ 2) = 10 ^ 2 from by norm_num]
    exact Real.sqrt_sq (by norm_num)
  unfold avgLineLength
  simp only [List.map, List.sum_cons, List.sum_nil, h5, h10]
  norm_num

/-- C9: for every source that cannot be decoded (cv2.imread yields None,
covering undecodable and empty sources alike), the constructor fails with
a typed load error surfaced synchronously to the caller, with no retry and
no partial result; for every decodable source it succeeds and produces an
image. -/
theorem init_load_error_spec :
    ∀ cv : CV,
      laneDetectorInit cv none = Except.error "Could not load image"
      ∧ (∀ img : ColorImg, ∃ out : ColorImg, laneDetectorInit cv (some img) = Except.ok out) := by
  intro cv
  refine ⟨rfl, fun img => ?_⟩
  have hstep : laneDetectorInit cv (some img)
      = if 1280 < cimgW img ∨ 720 < cimgH img
        then Except.ok (cv.resize img (resizeDims (cimgW img) (cimgH img)).1
               (resizeDims (cimgW img) (cimgH img)).2)
        else Except.ok img := rfl
  rw [hstep]
  split
  · exact ⟨_, rfl⟩
  · exact ⟨_, rfl⟩

/-- C2: for every image and every pair of parameter sets differing only in
roiBottom, detect produces the same region mask, the same line sequence
and the same annotated image: roiBottom is accepted but never consulted
(two-run noninterference of the output from the roiBottom input). -/
theorem detect_roiBottom_noninterference :
    ∀ (cv : CV) (img : ColorImg) (p : Params) (b b' : Nat),
      maskOf cv img { p with roiBottom := b } = maskOf cv img { p with roiBottom := b' }
      ∧ (detectLanes cv img { p with roiBottom := b }).lines
          = (detectLanes cv img { p with roiBottom := b' }).lines
      ∧ (detectLanes cv img { p with roiBottom := b }).resultImage
          = (detectLanes cv img { p with roiBottom := b' }).resultImage
      ∧ detectLanes cv img { p with roiBottom := b }
          = detectLanes cv img { p with roiBottom := b' } :=
  fun cv img p b b' => ⟨rfl, rfl, rfl, rfl⟩

/-- C5: two invocations of detect on identical (image, params) inputs
yield identical outputs — the same line sequence (same order and values)
and the same annotated image (two-run determinism of the embedded detect
function; the embedding is a pure function of its inputs because the
source reads no state other than its arguments). -/
theorem detect_deterministic :
    ∀ (cv : CV) (img img' : ColorImg) (p p' : Params),
      img = img' → p = p' →
      (detectLanes cv img p).lines = (detectLanes cv img' p').lines
      ∧ (detectLanes cv img p).resultImage = (detectLanes cv img' p').resultImage
      ∧ detectLanes cv img p = detectLanes cv img' p' := by
  rintro cv img img' p p' rfl rfl
  exact ⟨rfl, rfl, rfl⟩

/-- Witness for C5 at a concrete image and parameter set. -/
theorem detect_deterministic_witness :
    white50 = white50 ∧ paramsHT1000 = paramsHT1000
    ∧ ((detectLanes cv0 white50 paramsHT1000).lines
          = (detectLanes cv0 white50 paramsHT1000).lines
       ∧ (detectLanes cv0 white50 paramsHT1000).resultImage
          = (detectLanes cv0 white50 paramsHT1000).resultImage
       ∧ detectLanes cv0 white50 paramsHT1000 = detectLanes cv0 white50 paramsHT1000) :=
  ⟨rfl, rfl, detect_deterministic cv0 white50 white50 paramsHT1000 paramsHT1000 rfl rfl⟩

/-- The default keyword-argument values of `detect_lanes`. -/
def defaultParams : Params := {}

/-- C10: the edge map component returned by detect is the unmasked Canny
output computed before ROI masking (grayscale, then 5x5 blur with zero
explicit standard deviation, then two-threshold edge detection); it is
identical across all values of the Hough and ROI parameters for a fixed
image and fixed Canny thresholds. -/
theorem detect_edges_unmasked :
    ∀ (cv : CV) (img : ColorImg) (p q : Params),
      p.cannyLow = q.cannyLow → p.cannyHigh = q.cannyHigh →
      (detectLanes cv img p).edges
          = cv.canny (cv.gaussianBlur5 (cv.cvtColorGray img)) p.cannyLow p.cannyHigh
      ∧ (detectLanes cv img p).edges = (detectLanes cv img q).edges := by
  intro cv img p q h1 h2
  refine ⟨rfl, ?_⟩
  show edgesOf cv img p = edgesOf cv img q
  unfold edgesOf
  rw [h1, h2]

/-- Witness for C10: two parameter sets sharing the Canny thresholds but
with different Hough thresholds yield the same returned edge map. -/
theorem detect_edges_unmasked_witness :
    defaultParams.cannyLow = paramsHT1000.cannyLow
    ∧ defaultParams.cannyHigh = paramsHT1000.cannyHigh
    ∧ ((detectLanes cv0 white50 defaultParams).edges
          = cv0.canny (cv0.gaussianBlur5 (cv0.cvtColorGray white50))
              defaultParams.cannyLow defaultParams.cannyHigh
       ∧ (detectLanes cv0 white50 defaultParams).edges
          = (detectLanes cv0 white50 paramsHT1000).edges) :=
  ⟨rfl, rfl, detect_edges_unmasked cv0 white50 defaultParams paramsHT1000 rfl rfl⟩

/-- C1 counterexample: on the 50x50 blank white image with houghThreshold
1000, detect completes and its lines component is None (null) — it is NOT
the empty ordered sequence, contradicting the claim that the lines
component is never null. -/
theorem detect_noLines_is_null :
    (detectLanes cv0 white50 paramsHT1000).lines = none
    ∧ (detectLanes cv0 white50 paramsHT1000).lines ≠ some [] := by
  constructor <;> decide

/-- C1 amended: when the line-extraction stage finds no segments, detect
does not raise an error — it returns a complete result whose lines
component is None (the value cv2.HoughLinesP yields instead of an empty
array), which the hosting controller maps to a line count of zero and an
omitted statistic; the annotated image is still produced, carrying only
the ROI outline. -/
theorem detect_noLines_returns_none :
    ∀ (cv : CV) (img : ColorImg) (p : Params),
      segsOf cv img p = [] →
      (detectLanes cv img p).lines = none
      ∧ numLines (detectLanes cv img p).lines = 0
      ∧ avgLineLength (detectLanes cv img p).lines = none
      ∧ (detectLanes cv img p).resultImage = drawRoiOutline cv (verticesOf cv img p) img := by
  intro cv img p h
  have hl : linesOf cv img p = none := by simp [linesOf, h]
  refine ⟨hl, ?_, ?_, ?_⟩
  · show numLines (linesOf cv img p) = 0
    rw [hl]
    rfl
  · show avgLineLength (linesOf cv img p) = none
    rw [hl]
    rfl
  · show resultImageOf cv img p = _
    unfold resultImageOf
    rw [hl]

/-- Witness for the amended C1 at the concrete extreme-threshold input. -/
theorem detect_noLines_returns_none_witness :
    segsOf cv0 white50 paramsHT1000 = []
    ∧ ((detectLanes cv0 white50 paramsHT1000).lines = none
       ∧ numLines (detectLanes cv0 white50 paramsHT1000).lines = 0
       ∧ avgLineLength (detectLanes cv0 white50 paramsHT1000).lines = none
       ∧ (detectLanes cv0 white50 paramsHT1000).resultImage
           = drawRoiOutline cv0 (verticesOf cv0 white50 paramsHT1000) white50) :=
  ⟨by decide, detect_noLines_returns_none cv0 white50 paramsHT1000 (by decide)⟩

theorem resultImageOf_eq (cv : CV) (img : ColorImg) (p : Params) :
    resultImageOf cv img p
      = drawRoiOutline cv (verticesOf cv img p) ((segsOf cv img p).foldl (drawSeg cv) img) := by
  unfold resultImageOf linesOf
  by_cases h : (segsOf cv img p).isEmpty
  · rw [if_pos h]
    rw [List.isEmpty_iff.mp h]
    rfl
  · rw [if_neg h]

/-- C8: rendering draws (onto a copy, the source never being mutated in
this functional reading) every extracted segment first and the ROI
trapezoid outline last; consequently with zero detected segments the
annotated image differs from the source only at pixels of the outline
stroke set — every pixel outside it equals the source, and every in-bounds
pixel inside it carries the outline colour. -/
theorem render_frame_effect :
    ∀ (cv : CV) (img : ColorImg) (p : Params),
      (detectLanes cv img p).resultImage
        = drawRoiOutline cv (verticesOf cv img p) ((segsOf cv img p).foldl (drawSeg cv) img)
      ∧ (segsOf cv img p = [] →
          (∀ x y : Nat, cv.polyStroke (verticesOf cv img p) x y = false →
            getPixel ((detectLanes cv img p).resultImage) x y = getPixel img x y)
          ∧ (∀ (x y : Nat) (q : Pix), cv.polyStroke (verticesOf cv img p) x y = true →
              getPixel img x y = some q →
              getPixel ((detectLanes cv img p).resultImage) x y = some roiColor)) := by
  intro cv img p
  refine ⟨resultImageOf_eq cv img p, fun h => ⟨?_, ?_⟩⟩
  · intro x y hxy
    show getPixel (resultImageOf cv img p) x y = _
    rw [resultImageOf_eq, h]
    simp only [List.foldl_nil]
    unfold drawRoiOutline
    rw [getPixel_overlay, hxy]
    cases getPixel img x y <;> simp
  · intro x y q hxy hq
    show getPixel (resultImageOf cv img p) x y = _
    rw [resultImageOf_eq, h]
    simp only [List.foldl_nil]
    unfold drawRoiOutline
    rw [getPixel_overlay, hq, hxy]
    simp

/-- Witness for C8: with the concrete no-detection run, a pixel outside
the outline stroke set is unchanged from the source. -/
theorem render_frame_effect_witness :
    segsOf cv0 white50 paramsHT1000 = []
    ∧ cv0.polyStroke (verticesOf cv0 white50 paramsHT1000) 5 5 = false
    ∧ getPixel ((detectLanes cv0 white50 paramsHT1000).resultImage) 5 5 = getPixel white50 5 5 := by
  refine ⟨by decide, by decide, ?_⟩
  exact ((render_frame_effect cv0 white50 paramsHT1000).2 (by decide)).1 5 5 (by decide)

/-- C4 amended: for an oversized loaded image the new dimensions are the
single uniform scale factor min(1280/width, 720/height) applied to each
dimension and then TRUNCATED (floored) to an integer — not rounded to
nearest; the output is bounded by 1280 x 720, each dimension is within one
pixel of its exactly-scaled value (so the aspect ratio is preserved within
one pixel of rounding), the computation is deterministic, and images
already within 1280 x 720 keep their dimensions. -/
theorem resizeDims_correct :
    ∀ (w h : Nat), 0 < w → 0 < h →
      (resizeDims w h).1 ≤ 1280
      ∧ (resizeDims w h).2 ≤ 720
      ∧ (¬(1280 < w ∨ 720 < h) → resizeDims w h = (w, h))
      ∧ (∀ w' h' : Nat, w = w' → h = h' → resizeDims w h = resizeDims w' h')
      ∧ ((1280 < w ∨ 720 < h) →
          resizeDims w h
            = (⌊(w : ℚ) * min ((1280 : ℚ) / (w : ℚ)) ((720 : ℚ) / (h : ℚ))⌋₊,
               ⌊(h : ℚ) * min ((1280 : ℚ) / (w : ℚ)) ((720 : ℚ) / (h : ℚ))⌋₊)
          ∧ (w : ℚ) * min ((1280 : ℚ) / (w : ℚ)) ((720 : ℚ) / (h : ℚ)) - 1
              < ((resizeDims w h).1 : ℚ)
          ∧ ((resizeDims w h).1 : ℚ)
              ≤ (w : ℚ) * min ((1280 : ℚ) / (w : ℚ)) ((720 : ℚ) / (h : ℚ))
          ∧ (h : ℚ) * min ((1280 : ℚ) / (w : ℚ)) ((720 : ℚ) / (h : ℚ)) - 1
              < ((resizeDims w h).2 : ℚ)
          ∧ ((resizeDims w h).2 : ℚ)
              ≤ (h : ℚ) * min ((1280 : ℚ) / (w : ℚ)) ((720 : ℚ) / (h : ℚ))) := by
  intro w h hw hh
  have hw0 : (0 : ℚ) < (w : ℚ) := by exact_mod_cast hw
  have hh0 : (0 : ℚ) < (h : ℚ) := by exact_mod_cast hh
  have hs0 : 0 < min ((1280 : ℚ) / (w : ℚ)) ((720 : ℚ) / (h : ℚ)) :=
    lt_min (div_pos (by norm_num) hw0) (div_pos (by norm_num) hh0)
  have hws : (w : ℚ) * min ((1280 : ℚ) / (w : ℚ)) ((720 : ℚ) / (h : ℚ)) ≤ 1280 := by
    calc (w : ℚ) * min ((1280 : ℚ) / (w : ℚ)) ((720 : ℚ) / (h : ℚ))
        ≤ (w : ℚ) * ((1280 : ℚ) / (w : ℚ)) :=
          mul_le_mul_of_nonneg_left (min_le_left _ _) hw0.le
      _ = 1280 := by field_simp
  have hhs : (h : ℚ) * min ((1280 : ℚ) / (w : ℚ)) ((720 : ℚ) / (h : ℚ)) ≤ 720 := by
    calc (h : ℚ) * min ((1280 : ℚ) / (w : ℚ)) ((720 : ℚ) / (h : ℚ))
        ≤ (h : ℚ) * ((720 : ℚ) / (h : ℚ)) :=
          mul_le_mul_of_nonneg_left (min_le_right _ _) hh0.le
      _ = 720 := by field_simp
  by_cases hc : 1280 < w ∨ 720 < h
  · have hr : resizeDims w h
        = (⌊(w : ℚ) * min ((1280 : ℚ) / (w : ℚ)) ((720 : ℚ) / (h : ℚ))⌋₊,
           ⌊(h : ℚ) * min ((1280 : ℚ) / (w : ℚ)) ((720 : ℚ) / (h : ℚ))⌋₊) := by
      rw [resizeDims, if_pos hc]
    have hb1 : (resizeDims w h).1 ≤ 1280 := by
      rw [hr]
      calc ⌊(w : ℚ) * min ((1280 : ℚ) / (w : ℚ)) ((720 : ℚ) / (h : ℚ))⌋₊
          ≤ ⌊(1280 : ℚ)⌋₊ := Nat.floor_le_floor hws
        _ = 1280 := by norm_num
    have hb2 : (resizeDims w h).2 ≤ 720 := by
      rw [hr]
      calc ⌊(h : ℚ) * min ((1280 : ℚ) / (w : ℚ)) ((720 : ℚ) / (h : ℚ))⌋₊
          ≤ ⌊(720 : ℚ)⌋₊ := Nat.floor_le_floor hhs
        _ = 720 := by norm_num
    refine ⟨hb1, hb2, fun hn => absurd hc hn, fun w' h' e1 e2 => by rw [e1, e2], fun _ => ?_⟩
    refine ⟨hr, ?_, ?_, ?_, ?_⟩
    · rw [hr]
      exact Nat.sub_one_lt_floor _
    · rw [hr]
      exact Nat.floor_le (mul_nonneg hw0.le hs0.le)
    · rw [hr]
      exact Nat.sub_one_lt_floor _
    · rw [hr]
      exact Nat.floor_le (mul_nonneg hh0.le hs0.le)
  · have hr : resizeDims w h = (w, h) := by rw [resizeDims, if_neg hc]
    push_neg at hc
    exact ⟨by rw [hr]; exact hc.1, by rw [hr]; exact hc.2,
           fun _ => hr, fun w' h' e1 e2 => by rw [e1, e2],
           fun hcon => absurd hcon (by push_neg; exact hc)⟩

/-- C4 counterexample: the resize arithmetic TRUNCATES, it does not round
to nearest.  At width 100, height 721 the code computes
new_width = int(100 * 720/721) = int(99.861...) = 99, while rounding to
the nearest integer would give 100. -/
theorem resizeDims_not_round_nearest :
    resizeDims 100 721 = (99, 720)
    ∧ roundedResizeDims 100 721 = (100, 720)
    ∧ resizeDims 100 721 ≠ roundedResizeDims 100 721 := by
  have h1 : resizeDims 100 721 = (99, 720) := by
    have hstep : resizeDims 100 721
        = (⌊(100 : ℚ) * min ((1280 : ℚ) / 100) ((720 : ℚ) / 721)⌋₊,
           ⌊(721 : ℚ) * min ((1280 : ℚ) / 100) ((720 : ℚ) / 721)⌋₊) := by
      rw [resizeDims, if_pos (by norm_num)]
      push_cast
      rfl
    rw [hstep, min_eq_right (by norm_num), Prod.mk.injEq]
    constructor
    · rw [Nat.floor_eq_iff (by norm_num)]
      norm_num
    · rw [Nat.floor_eq_iff (by norm_num)]
      norm_num
  have h2 : roundedResizeDims 100 721 = (100, 720) := by
    have hstep : roundedResizeDims 100 721
        = ((round ((100 : ℚ) * min ((1280 : ℚ) / 100) ((720 : ℚ) / 721))).toNat,
           (round ((721 : ℚ) * min ((1280 : ℚ) / 100) ((720 : ℚ) / 721))).toNat) := by
      rw [roundedResizeDims, if_pos (by norm_num)]
      push_cast
      rfl
    rw [hstep, min_eq_right (by norm_num), Prod.mk.injEq]
    constructor
    · have hrnd : round ((100 : ℚ) * (720 / 721)) = 100 := by
        rw [round_eq, Int.floor_eq_iff]
        norm_num
      rw [hrnd]
      rfl
    · have hrnd : round ((721 : ℚ) * (720 / 721)) = 720 := by
        rw [round_eq, Int.floor_eq_iff]
        norm_num
      rw [hrnd]
      rfl
  refine ⟨h1, h2, ?_⟩
  rw [h1, h2]
  decide

/-- Witness for the amended C4 at the 2560x1440 example: the downscaled
dimensions are exactly (1280, 720), within bounds. -/
theorem resizeDims_correct_witness :
    0 < 2560 ∧ 0 < 1440
    ∧ (resizeDims 2560 1440).1 ≤ 1280
    ∧ (resizeDims 2560 1440).2 ≤ 720
    ∧ resizeDims 2560 1440 = (1280, 720) := by
  have hmain := resizeDims_correct 2560 1440 (by norm_num) (by norm_num)
  refine ⟨by norm_num, by norm_num, hmain.1, hmain.2.1, ?_⟩
  have hstep : resizeDims 2560 1440
      = (⌊(2560 : ℚ) * min ((1280 : ℚ) / 2560) ((720 : ℚ) / 1440)⌋₊,
         ⌊(1440 : ℚ) * min ((1280 : ℚ) / 2560) ((720 : ℚ) / 1440)⌋₊) := by
    rw [resizeDims, if_pos (by norm_num)]
    push_cast
    rfl
  rw [hstep, min_eq_right (by norm_num), Prod.mk.injEq]
  constructor
  · rw [Nat.floor_eq_iff (by norm_num)]
    norm_num
  · rw [Nat.floor_eq_iff (by norm_num)]
    norm_num
